import Mathlib

/-!
Verification of `brightness_control.py`: the backlight state model
(`BacklightController`) and the double-tap wake detector
(`DoubleTapDetector._monitor_touch`), shallowly embedded as pure Lean
functions.

Modelling conventions:
* The float arithmetic of the percent conversions
  (`(brightness / max_brightness) * 100` and
  `(percent / 100.0) * max_brightness`) is modelled faithfully: `fl`
  rounds an exact rational to the nearest IEEE 754 binary64 value
  (round to nearest, ties to even), and each Python float operation is
  one correctly rounded step, so double-rounding artefacts such as
  `int(0.58 * 100) = 57` are reproduced exactly.
* Detector timestamps (`time.time()`) are exact rationals `ℚ`; the
  in-window comparisons of the claims are not sensitive to the final
  ulp of a wall-clock timestamp.
* Python `int(x)` on a number truncates toward zero (`pyInt`).
* A fallible sysfs write (`_write_int`) is modelled by an explicit `Bool`
  oracle argument saying whether the write succeeds; on failure nothing
  changes and `False` is returned, as in the source.
* The controller state holds the contents of the sysfs files
  (`brightness`, `max_brightness`, `bl_power`) plus the in-memory
  `last_brightness`; reads from these files in the happy path return the
  stored integer.  The failure modes of `_read_int` (IO error /
  unparsable text) are modelled separately by `ReadResult`.
-/

namespace BrightnessControl

/-- Python `int()` applied to a rational number: truncation toward zero. -/
def pyInt (q : ℚ) : ℤ := if 0 ≤ q then ⌊q⌋ else ⌈q⌉

/-- Round a rational to the nearest integer, ties to the even integer
(the rounding of the binary64 significand). -/
def roundEven (x : ℚ) : ℤ :=
  if x - ⌊x⌋ < 1 / 2 then ⌊x⌋
  else if 1 / 2 < x - ⌊x⌋ then ⌊x⌋ + 1
  else if 2 ∣ ⌊x⌋ then ⌊x⌋ else ⌊x⌋ + 1

/-- Round a positive rational to the nearest binary64 value: scale into
the 53-bit significand range `[2^52, 2^53)`, round the significand to the
nearest integer (ties to even), and scale back. -/
def flPos (q : ℚ) : ℚ :=
  ((roundEven (q * 2 ^ ((52 : ℤ) - Int.log 2 q)) : ℚ)) * 2 ^ (Int.log 2 q - 52)

/-- IEEE 754 binary64 rounding of an exact rational (round to nearest,
ties to even), with an unbounded exponent: it agrees with Python float
results everywhere in the normal range (no overflow, no subnormals),
where every value arising in the claims lies.  Each Python float
operation on exactly representable operands produces `fl` of its exact
result. -/
def fl (q : ℚ) : ℚ :=
  if q < 0 then -flPos (-q) else if q = 0 then 0 else flPos q

/-- The mutable state of `BacklightController`: the three sysfs file
contents and the in-memory `last_brightness` field. `bl_power` holds the
integer in the `bl_power` file (`0` = on, `1` = off). -/
structure BacklightState where
  brightness : ℤ
  max_brightness : ℤ
  last_brightness : ℤ
  bl_power : ℤ
deriving Repr, DecidableEq

/-- `get_brightness` (line 65): reads the `brightness` file (happy path). -/
def get_brightness (s : BacklightState) : ℤ := s.brightness

/-- `get_brightness_percent` (line 69):
`int((self.get_brightness() / self.max_brightness) * 100)` with a
division-by-zero guard returning `0`.  The true division of the two
Python ints is one correctly rounded binary64 operation, and so is the
multiplication by `100`; `int()` then truncates. -/
def get_brightness_percent (s : BacklightState) : ℤ :=
  if s.max_brightness = 0 then 0
  else pyInt (fl (fl ((get_brightness s : ℚ) / (s.max_brightness : ℚ)) * 100))

/-- What the spec text claims `get_brightness_percent` computes:
`round(brightness / max_brightness * 100)`, rounding to the nearest
integer, with the same `max_brightness == 0` guard.  Stated only to be
compared against the implementation above. -/
def get_brightness_percent_spec (s : BacklightState) : ℤ :=
  if s.max_brightness = 0 then 0
  else round (((get_brightness s : ℚ) / (s.max_brightness : ℚ)) * 100)

/-- `set_brightness` (line 75): clamp to `[0, max_brightness]` via
`max(0, min(value, self.max_brightness))`, attempt the device write; on
success update `last_brightness` and return `True`, else return `False`
with no state change.  `writeOk` is the outcome of the fallible write. -/
def set_brightness (s : BacklightState) (writeOk : Bool) (value : ℤ) :
    Bool × BacklightState :=
  let v := max 0 (min value s.max_brightness)
  if writeOk then
    (true, { s with brightness := v, last_brightness := v })
  else
    (false, s)

/-- `set_brightness_percent` (line 83):
`int((percent / 100.0) * self.max_brightness)` then delegate to
`set_brightness`.  `percent` is the exact value of the Python number
passed in (an integer from the GUI or CLI clamp, exactly representable);
the division by `100.0` and the multiplication by `max_brightness` are
each one correctly rounded binary64 operation. -/
def set_brightness_percent (s : BacklightState) (writeOk : Bool) (percent : ℚ) :
    Bool × BacklightState :=
  set_brightness s writeOk (pyInt (fl (fl (percent / 100) * (s.max_brightness : ℚ))))

/-- `is_backlight_off` (line 88): reads `bl_power` and compares with `1`
(happy path). -/
def is_backlight_off (s : BacklightState) : Bool := s.bl_power == 1

/-- `turn_backlight_off` (line 92): write `1` to the `bl_power` file. -/
def turn_backlight_off (s : BacklightState) (writeOk : Bool) :
    Bool × BacklightState :=
  if writeOk then (true, { s with bl_power := 1 }) else (false, s)

/-- `turn_backlight_on` (line 96): write `0` to the `bl_power` file. -/
def turn_backlight_on (s : BacklightState) (writeOk : Bool) :
    Bool × BacklightState :=
  if writeOk then (true, { s with bl_power := 0 }) else (false, s)

/-- `restore_brightness` (line 100): `set_brightness(self.last_brightness)`
then `turn_backlight_on()`, both return values ignored.  `ok1` / `ok2` are
the outcomes of the two device writes, in program order. -/
def restore_brightness (s : BacklightState) (ok1 ok2 : Bool) : BacklightState :=
  let s1 := (set_brightness s ok1 s.last_brightness).2
  (turn_backlight_on s1 ok2).2

/-! ### The `_read_int` failure model (lines 48-54)

`_read_int` does `int(f.read().strip())` and returns `0` on `IOError` or
`ValueError`.  A read outcome is either an IO error or the string the file
held; `pyParseInt` models CPython `int()` on an ASCII string (optional
surrounding whitespace, optional sign, decimal digits with single
underscore separators between digits; non-ASCII digit forms are outside
the model and unused by the claims). -/

/-- Outcome of opening and reading a sysfs file. -/
inductive ReadResult where
  | ioError : ReadResult
  | content : String → ReadResult

/-- Python whitespace characters stripped by `str.strip()` (ASCII part). -/
def pyIsSpace (c : Char) : Bool :=
  c = ' ' || c = '\t' || c = '\n' || c = '\x0d' || c = '\x0b' || c = '\x0c'

/-- `str.strip()`: drop leading and trailing whitespace. -/
def pyStrip (s : String) : String :=
  ⟨((s.data.dropWhile pyIsSpace).reverse.dropWhile pyIsSpace).reverse⟩

/-- After the first digit of an integer literal: digits, with single
underscores allowed only between digits. -/
def digitsTail : List Char → Bool
  | [] => true
  | '_' :: c :: cs => c.isDigit && digitsTail cs
  | ['_'] => false
  | c :: cs => c.isDigit && digitsTail cs

/-- A valid unsigned decimal run for `int()`: nonempty, starts with a
digit, underscores only between digits. -/
def digitsOk : List Char → Bool
  | [] => false
  | c :: cs => c.isDigit && digitsTail cs

/-- Numeric value of a digit run, skipping underscore separators. -/
def digitsVal (cs : List Char) : ℤ :=
  cs.foldl (fun a c => if c = '_' then a else a * 10 + ((c.toNat : ℤ) - 48)) 0

/-- CPython `int(s)` on a string: strip whitespace, optional sign, decimal
digits; `none` when the string is not a valid integer literal
(`ValueError`). -/
def pyParseInt (s : String) : Option ℤ :=
  match (pyStrip s).data with
  | [] => none
  | '+' :: rest => if digitsOk rest then some (digitsVal rest) else none
  | '-' :: rest => if digitsOk rest then some (-(digitsVal rest)) else none
  | cs => if digitsOk cs then some (digitsVal cs) else none

/-- `_read_int` (line 48): `int(f.read().strip())`, with `0` returned on
`IOError` (failed read) or `ValueError` (unparsable content). -/
def read_int : ReadResult → ℤ
  | ReadResult.ioError => 0
  | ReadResult.content s => (pyParseInt (pyStrip s)).getD 0

/-- `get_brightness` as a function of the raw file read (line 65). -/
def get_brightness_read (r : ReadResult) : ℤ := read_int r

/-- `is_backlight_off` as a function of the raw file read (line 88). -/
def is_backlight_off_read (r : ReadResult) : Bool := read_int r == 1

/-! ### The double-tap detector (`DoubleTapDetector`, lines 106-187)

The monitoring loop `_monitor_touch` iterates over touch events.  Each
iteration reads `self.running`, the gate `is_backlight_off()` (a read of
shared state, modelled as a per-iteration `Bool`), and the event; an
iteration may raise an unexpected exception (`raises`).  The `try/except`
in the source wraps the whole `for` loop (lines 156-187), so a raised
exception is caught once, outside the loop. -/

/-- evdev constant `ecodes.EV_KEY`. -/
def EV_KEY : ℕ := 1

/-- evdev constant `ecodes.BTN_TOUCH`. -/
def BTN_TOUCH : ℕ := 330

/-- One evdev event: `event.type`, `event.code`, `event.value`, and the
`time.time()` value observed while processing it (seconds, as `ℚ`). -/
structure TouchEvent where
  etype : ℕ
  ecode : ℕ
  value : ℤ
  time : ℚ
deriving Repr, DecidableEq

/-- Detector state: `self.last_tap_time` (the source uses `0` as the
"no previous tap" sentinel) and `self.touch_down`. -/
structure DetectorState where
  last_tap_time : ℚ
  touch_down : Bool
deriving Repr, DecidableEq

/-- `self.tap_timeout = 0.5` (500 ms double-tap window, seconds). -/
def tap_timeout : ℚ := 1 / 2

/-- Detector state as initialised in `__init__` (lines 117-119). -/
def initState : DetectorState := { last_tap_time := 0, touch_down := false }

/-- One iteration of the loop body of `_monitor_touch` (lines 162-184),
given the gate reading for this iteration.  Returns the new detector state
and the number of wake callbacks scheduled (`GLib.idle_add(self.callback)`),
which is `0` or `1`. -/
def step (power_off : Bool) (s : DetectorState) (e : TouchEvent) :
    DetectorState × ℕ :=
  if power_off = false then
    ({ last_tap_time := 0, touch_down := false }, 0)
  else if e.etype = EV_KEY ∧ e.ecode = BTN_TOUCH then
    if e.value = 1 then
      if e.time - s.last_tap_time < tap_timeout then
        ({ last_tap_time := 0, touch_down := true }, 1)
      else
        ({ last_tap_time := e.time, touch_down := true }, 0)
    else if e.value = 0 then
      ({ last_tap_time := s.last_tap_time, touch_down := false }, 0)
    else (s, 0)
  else (s, 0)

/-- The data consumed by one loop iteration: the `self.running` flag read
at the top, the `is_backlight_off()` gate reading, whether processing this
event raises an unexpected exception, and the event itself. -/
structure LoopInput where
  running : Bool
  power_off : Bool
  raises : Bool
  event : TouchEvent
deriving Repr, DecidableEq

/-- Observable outcome of running `_monitor_touch` over a finite prefix of
the event stream: total wake callbacks, final detector state, number of
iterations whose body ran to completion, and whether the loop ended via
the `except` handler (an exception escaped the loop and was caught). -/
structure MonitorResult where
  wakes : ℕ
  state : DetectorState
  processed : ℕ
  caught : Bool
deriving Repr, DecidableEq

/-- `_monitor_touch` (lines 154-187) over a finite list of loop inputs.
`if not self.running: break` ends the loop quietly; a raised exception
propagates out of the `for` loop and is caught by the surrounding
`except` (so no later input is processed); otherwise the body `step`
runs and the loop continues. -/
def monitor_touch : DetectorState → List LoopInput → MonitorResult
  | s, [] => { wakes := 0, state := s, processed := 0, caught := false }
  | s, i :: rest =>
    if i.running = false then
      { wakes := 0, state := s, processed := 0, caught := false }
    else if i.raises = true then
      { wakes := 0, state := s, processed := 0, caught := true }
    else
      let p := step i.power_off s i.event
      let r := monitor_touch p.1 rest
      { wakes := p.2 + r.wakes, state := r.state,
        processed := r.processed + 1, caught := r.caught }

/-- A `BTN_TOUCH` down event at time `t`, observed with the gate open
(backlight off), the loop running, and no processing error. -/
def downInput (t : ℚ) : LoopInput :=
  { running := true, power_off := true, raises := false,
    event := { etype := EV_KEY, ecode := BTN_TOUCH, value := 1, time := t } }

/-- A loop iteration whose processing raises an unexpected exception, while
the loop is running and the gate is open. -/
def raisingInput : LoopInput :=
  { running := true, power_off := true, raises := true,
    event := { etype := EV_KEY, ecode := BTN_TOUCH, value := 1, time := 1 } }

/-! ## Theorems -/

/-- C3: while the gating condition is false (`is_backlight_off()` returned
`False`), one loop-body step resets `last_tap_time` to the "none" sentinel
`0`, clears `touch_down`, emits no wake signal, and records no tap
timestamp, for every detector state and every event; hence no timer state
survives a power off/on cycle. -/
theorem gate_closed_resets_state (s : DetectorState) (e : TouchEvent) :
    step false s e = ({ last_tap_time := 0, touch_down := false }, 0) := rfl

/-- C9: `turn_backlight_off` and `turn_backlight_on` only touch the
`bl_power` field: `brightness`, `last_brightness` and `max_brightness` are
unchanged by any call, whether or not the device write succeeds. -/
theorem turn_power_frame (s : BacklightState) (ok : Bool) :
    ((turn_backlight_off s ok).2.brightness = s.brightness
      ∧ (turn_backlight_off s ok).2.last_brightness = s.last_brightness
      ∧ (turn_backlight_off s ok).2.max_brightness = s.max_brightness)
    ∧ ((turn_backlight_on s ok).2.brightness = s.brightness
      ∧ (turn_backlight_on s ok).2.last_brightness = s.last_brightness
      ∧ (turn_backlight_on s ok).2.max_brightness = s.max_brightness) := by
  cases ok <;> simp [turn_backlight_off, turn_backlight_on]

/-- C10: file content that fails to parse as an integer is treated exactly
like an IO read failure: `_read_int` falls back to `0`, so
`get_brightness()` returns `0` and `is_backlight_off()` returns `false`
(power assumed on, which closes the detector's gate). -/
theorem read_failure_fallback (s : String)
    (h : pyParseInt (pyStrip s) = none) :
    read_int (ReadResult.content s) = 0
    ∧ read_int ReadResult.ioError = 0
    ∧ get_brightness_read (ReadResult.content s) = read_int ReadResult.ioError
    ∧ is_backlight_off_read (ReadResult.content s) = false := by
  simp [read_int, get_brightness_read, is_backlight_off_read, h]

/-- Witness for C10 at the non-integer file content `"abc\n"`. -/
theorem read_failure_fallback_witness :
    read_int (ReadResult.content ("abc\n")) = 0
    ∧ read_int ReadResult.ioError = 0
    ∧ get_brightness_read (ReadResult.content ("abc\n")) = read_int ReadResult.ioError
    ∧ is_backlight_off_read (ReadResult.content ("abc\n")) = false :=
  read_failure_fallback ("abc\n") (by decide)

/-- C8: `set_brightness` clamps its argument to `[0, max_brightness]`
(below `0` stores exactly `0`, above `max_brightness` stores exactly
`max_brightness`), returns the write outcome, updates `last_brightness`
to the clamped value exactly when the write succeeds, and on a failed
write leaves the whole state (in particular `last_brightness`)
unchanged. -/
theorem set_brightness_clamps (s : BacklightState) (ok : Bool) (v : ℤ)
    (hm : 0 ≤ s.max_brightness) :
    ((set_brightness s ok v).1 = ok)
    ∧ (ok = true →
        (set_brightness s ok v).2.brightness = max 0 (min v s.max_brightness)
        ∧ (set_brightness s ok v).2.last_brightness
            = max 0 (min v s.max_brightness))
    ∧ (ok = true → v < 0 → (set_brightness s ok v).2.brightness = 0)
    ∧ (ok = true → s.max_brightness < v →
        (set_brightness s ok v).2.brightness = s.max_brightness)
    ∧ (ok = false → (set_brightness s ok v).2 = s) := by
  cases ok
  · simp [set_brightness]
  · simp [set_brightness]
    omega

/-- A sample controller state used by the C8 witness. -/
def sampleState : BacklightState :=
  { brightness := 3, max_brightness := 10, last_brightness := 3, bl_power := 0 }

/-- Witness for C8: a write success at `v = -5` stores exactly `0`, one at
`v = 20` with `max_brightness = 10` stores exactly `10`, and a failed
write leaves the state unchanged. -/
theorem set_brightness_clamps_witness :
    (set_brightness sampleState true (-5)).2.brightness = 0
    ∧ (set_brightness sampleState true 20).2.brightness = 10
    ∧ (set_brightness sampleState false 20).2 = sampleState :=
  ⟨(set_brightness_clamps sampleState true (-5) (by norm_num [sampleState])).2.2.1
      rfl (by norm_num),
   (set_brightness_clamps sampleState true 20 (by norm_num [sampleState])).2.2.2.1
      rfl (by norm_num [sampleState]),
   (set_brightness_clamps sampleState false 20 (by norm_num [sampleState])).2.2.2.2
      rfl⟩

/-- C5: when both device writes succeed and `last_brightness` lies in
`[0, max_brightness]` (the model invariant), `restore_brightness` leaves
the power on (`bl_power = 0`, `is_backlight_off` false) with
`brightness = last_brightness`; moreover the intermediate state after the
first step (`set_brightness`) already has the brightness committed while
the power value is still untouched, i.e. brightness is written before
power is re-enabled. -/
theorem restore_brightness_restores (s : BacklightState)
    (h0 : 0 ≤ s.last_brightness) (h1 : s.last_brightness ≤ s.max_brightness) :
    (restore_brightness s true true).bl_power = 0
    ∧ is_backlight_off (restore_brightness s true true) = false
    ∧ (restore_brightness s true true).brightness = s.last_brightness
    ∧ (restore_brightness s true true).last_brightness = s.last_brightness
    ∧ (set_brightness s true s.last_brightness).2.brightness
        = s.last_brightness
    ∧ (set_brightness s true s.last_brightness).2.bl_power = s.bl_power := by
  have hclamp : max 0 (min s.last_brightness s.max_brightness)
      = s.last_brightness := by omega
  simp [restore_brightness, set_brightness, turn_backlight_on,
    is_backlight_off, hclamp]

/-- A powered-off state with `last_brightness = 0`, for the C5 witness. -/
def offState : BacklightState :=
  { brightness := 5, max_brightness := 10, last_brightness := 0, bl_power := 1 }

/-- Witness for C5 at a powered-off state whose `last_brightness` is `0`:
restore still ends with power on and `brightness = last_brightness = 0`. -/
theorem restore_brightness_restores_witness :
    (restore_brightness offState true true).bl_power = 0
    ∧ is_backlight_off (restore_brightness offState true true) = false
    ∧ (restore_brightness offState true true).brightness = 0 := by
  have h := restore_brightness_restores offState
    (by norm_num [offState]) (by norm_num [offState])
  exact ⟨h.1, h.2.1, h.2.2.1⟩

/-! ### Binary64 rounding lemmas

The percent conversions of the source are chains of two correctly rounded
binary64 operations followed by `int()`.  The lemmas below pin down `fl`:
an exact evaluation rule used on the concrete counterexample inputs, the
relative error bound `|fl q - q| ≤ q / 2^53`, and the consequence that
`int(fl(fl(a / b) * c))` lands on the exact floor `⌊a*c/b⌋` or one below
it, falling below only when `b` divides `a*c` exactly. -/

lemma roundEven_abs_sub (x : ℚ) : |(roundEven x : ℚ) - x| ≤ 1 / 2 := by
  have h1 : (⌊x⌋ : ℚ) ≤ x := Int.floor_le x
  have h2 : x < ⌊x⌋ + 1 := Int.lt_floor_add_one x
  unfold roundEven
  split_ifs <;> (rw [abs_le]; push_cast; constructor <;> linarith)

lemma int_log_unique (q : ℚ) (e : ℤ) (hq : 0 < q)
    (h1 : (2 : ℚ) ^ e ≤ q) (h2 : q < (2 : ℚ) ^ (e + 1)) : Int.log 2 q = e := by
  have ha : e ≤ Int.log 2 q := by
    rw [← Int.zpow_le_iff_le_log (by norm_num) hq]
    exact_mod_cast h1
  have hb : Int.log 2 q < e + 1 := by
    rw [← Int.lt_zpow_iff_log_lt (by norm_num) hq]
    exact_mod_cast h2
  omega

lemma fl_of_pos (q : ℚ) (hq : 0 < q) : fl q = flPos q := by
  rw [fl, if_neg (not_lt.mpr hq.le), if_neg (ne_of_gt hq)]

lemma fl_eval_down (q : ℚ) (e k : ℤ) (hq : 0 < q)
    (h1 : (2 : ℚ) ^ e ≤ q) (h2 : q < (2 : ℚ) ^ (e + 1))
    (hk1 : (k : ℚ) ≤ q * 2 ^ ((52 : ℤ) - e))
    (hk2 : q * 2 ^ ((52 : ℤ) - e) < (k : ℚ) + 1 / 2) :
    fl q = (k : ℚ) * 2 ^ (e - 52) := by
  have hlog : Int.log 2 q = e := int_log_unique q e hq h1 h2
  have hfloor : ⌊q * 2 ^ ((52 : ℤ) - e)⌋ = k := by
    rw [Int.floor_eq_iff]
    exact ⟨hk1, by linarith⟩
  rw [fl_of_pos q hq, flPos, hlog, roundEven, hfloor, if_pos (by linarith)]

lemma fl_zero : fl 0 = 0 := by simp [fl]

lemma fl_err (q : ℚ) (hq : 0 < q) : |fl q - q| ≤ q / 2 ^ 53 := by
  have h2ne : (2 : ℚ) ≠ 0 := by norm_num
  set e : ℤ := Int.log 2 q with he
  set σ : ℚ := q * 2 ^ ((52 : ℤ) - e) with hσ
  have hback : σ * 2 ^ (e - 52) = q := by
    rw [hσ, mul_assoc, ← zpow_add₀ h2ne]
    norm_num
  have hre := roundEven_abs_sub σ
  have hpow : (0 : ℚ) < 2 ^ ((e : ℤ) - 52) := by positivity
  have hfl : fl q = (roundEven σ : ℚ) * 2 ^ (e - 52) := by
    rw [fl_of_pos q hq, flPos, ← he, ← hσ]
  have hdiff : fl q - q = ((roundEven σ : ℚ) - σ) * 2 ^ (e - 52) := by
    rw [hfl, sub_mul, hback]
  have habs : |fl q - q| ≤ 1 / 2 * 2 ^ (e - 52) := by
    rw [hdiff, abs_mul, abs_of_pos hpow]
    exact mul_le_mul_of_nonneg_right hre hpow.le
  have hle : (2 : ℚ) ^ e ≤ q := by
    rw [he]
    exact Int.zpow_log_le_self (by norm_num) hq
  have goal2 : (1 / 2 : ℚ) * 2 ^ (e - 52) = 2 ^ (e - 53 : ℤ) := by
    rw [show ((1 : ℚ) / 2) = 2 ^ (-1 : ℤ) by norm_num, ← zpow_add₀ h2ne,
      show (-1 : ℤ) + (e - 52) = e - 53 by ring]
  have hsplit : (2 : ℚ) ^ (e - 53 : ℤ) = 2 ^ e * 2 ^ (-53 : ℤ) := by
    rw [← zpow_add₀ h2ne, show e + (-53 : ℤ) = e - 53 by ring]
  have h53 : ((2 : ℚ) ^ (-53 : ℤ)) = 1 / 2 ^ 53 := by norm_num
  calc |fl q - q| ≤ 1 / 2 * 2 ^ (e - 52) := habs
    _ = 2 ^ (e - 53 : ℤ) := goal2
    _ = 2 ^ e * 2 ^ (-53 : ℤ) := hsplit
    _ ≤ q * 2 ^ (-53 : ℤ) := mul_le_mul_of_nonneg_right hle (by positivity)
    _ = q / 2 ^ 53 := by rw [h53]; ring

lemma fl_nonneg (q : ℚ) (hq : 0 ≤ q) : 0 ≤ fl q := by
  rcases eq_or_lt_of_le hq with h | h
  · rw [← h, fl_zero]
  · have herr := fl_err q h
    rw [abs_le] at herr
    have h2 : q / 2 ^ 53 ≤ q := div_le_self h.le (by norm_num)
    linarith [herr.1]

lemma fl_pos (q : ℚ) (hq : 0 < q) : 0 < fl q := by
  have herr := fl_err q hq
  rw [abs_le] at herr
  have h2 : q / 2 ^ 53 < q := div_lt_self hq (by norm_num)
  linarith [herr.1]

lemma fl_two_step (a c : ℚ) (ha : 0 < a) (hc : 0 < c) :
    |fl (fl a * c) - a * c| ≤ 3 * (a * c) / 2 ^ 53 := by
  have h1 := fl_err a ha
  rw [abs_le] at h1
  have hfa : 0 < fl a := fl_pos a ha
  have h2 := fl_err (fl a * c) (mul_pos hfa hc)
  rw [abs_le] at h2
  have hfa2 : fl a ≤ 2 * a := by
    have h3 : a / 2 ^ 53 ≤ a := div_le_self ha.le (by norm_num)
    linarith [h1.2]
  have k1 : c * (fl a - a) ≤ c * (a / 2 ^ 53) :=
    mul_le_mul_of_nonneg_left h1.2 hc.le
  have k1l : c * (-(a / 2 ^ 53)) ≤ c * (fl a - a) :=
    mul_le_mul_of_nonneg_left h1.1 hc.le
  have k2 : fl a * c / 2 ^ 53 ≤ 2 * a * c / 2 ^ 53 := by
    have h4 : fl a * c ≤ 2 * a * c := mul_le_mul_of_nonneg_right hfa2 hc.le
    linarith
  have k2l : 0 ≤ fl a * c / 2 ^ 53 := by positivity
  rw [abs_le]
  constructor
  · nlinarith [h2.1]
  · nlinarith [h2.2]

lemma floor_within (a b : ℤ) (ε y : ℚ) (hb : 0 < b) (hε : 0 ≤ ε)
    (hεb : ε * b < 1) (h1 : (a : ℚ) / b - ε ≤ y) (h2 : y ≤ (a : ℚ) / b + ε) :
    ⌊(a : ℚ) / b⌋ - 1 ≤ ⌊y⌋ ∧ ⌊y⌋ ≤ ⌊(a : ℚ) / b⌋ := by
  have hbq : (0 : ℚ) < (b : ℚ) := by exact_mod_cast hb
  have hb1 : (1 : ℚ) ≤ (b : ℚ) := by exact_mod_cast hb
  set z : ℚ := (a : ℚ) / b with hz
  set d : ℤ := ⌊z⌋ with hd
  have hd1 : (d : ℚ) ≤ z := Int.floor_le z
  have hd2 : z < d + 1 := Int.lt_floor_add_one z
  have hεlt : ε < 1 / b := (lt_div_iff₀ hbq).mpr hεb
  have hfrac : z - d ≤ ((b : ℚ) - 1) / b := by
    have hzb : z * b = (a : ℚ) := by rw [hz]; field_simp
    have hint1 : (d : ℚ) * b ≤ a := by nlinarith
    have hint2 : (a : ℚ) < d * b + b := by nlinarith
    have hi1 : d * b ≤ a := by exact_mod_cast hint1
    have hi2 : a < d * b + b := by exact_mod_cast hint2
    have hi3 : a - d * b ≤ b - 1 := by omega
    have hiq : (a : ℚ) - d * b ≤ (b : ℚ) - 1 := by exact_mod_cast hi3
    have hrw : z - d = ((a : ℚ) - d * b) / b := by
      rw [hz]
      field_simp
      ring
    rw [hrw]
    gcongr
  constructor
  · apply Int.le_floor.mpr
    push_cast
    have hε1 : ε ≤ 1 := by nlinarith
    linarith
  · have hup : y < (d : ℚ) + 1 := by
      have : ((b : ℚ) - 1) / b + 1 / b = 1 := by field_simp
      linarith
    have := Int.floor_lt.mpr (show y < ((d + 1 : ℤ) : ℚ) by push_cast; linarith)
    omega

lemma pyInt_fl_div_mul (a b c : ℤ) (ha : 0 ≤ a) (hab : a ≤ b) (hb : 0 < b)
    (hc : 0 < c) (hbc : b * c ≤ 2 ^ 51) :
    0 ≤ pyInt (fl (fl ((a : ℚ) / b) * c))
    ∧ ⌊((a * c : ℤ) : ℚ) / (b : ℚ)⌋ - 1 ≤ pyInt (fl (fl ((a : ℚ) / b) * c))
    ∧ pyInt (fl (fl ((a : ℚ) / b) * c)) ≤ ⌊((a * c : ℤ) : ℚ) / (b : ℚ)⌋
    ∧ (pyInt (fl (fl ((a : ℚ) / b) * c)) < ⌊((a * c : ℤ) : ℚ) / (b : ℚ)⌋ →
        b ∣ a * c) := by
  have hbq : (0 : ℚ) < (b : ℚ) := by exact_mod_cast hb
  have hcq : (0 : ℚ) < (c : ℚ) := by exact_mod_cast hc
  rcases eq_or_lt_of_le ha with h0 | hapos
  · rw [← h0]
    norm_num [fl_zero, pyInt]
  · have haq : (0 : ℚ) < (a : ℚ) / b :=
      div_pos (by exact_mod_cast hapos) hbq
    set y : ℚ := fl (fl ((a : ℚ) / b) * c) with hy
    have herr := fl_two_step ((a : ℚ) / b) c haq hcq
    have hzy : (a : ℚ) / b * c = ((a * c : ℤ) : ℚ) / b := by push_cast; ring
    rw [hzy] at herr
    set z : ℚ := ((a * c : ℤ) : ℚ) / b with hz
    have hy0 : 0 ≤ y := by
      rw [hy]
      exact fl_nonneg _ (mul_nonneg (fl_nonneg _ haq.le) hcq.le)
    have hpy : pyInt y = ⌊y⌋ := by rw [pyInt, if_pos hy0]
    set ε : ℚ := 3 * z / 2 ^ 53 with hε
    have hz0 : 0 < z := by
      rw [hz]
      exact div_pos (by exact_mod_cast mul_pos hapos hc) hbq
    have hε0 : 0 ≤ ε := by positivity
    have hεb : ε * b < 1 := by
      have hac : a * c ≤ 2 ^ 51 := le_trans (by nlinarith) hbc
      have hrw : ε * b = 3 * ((a * c : ℤ) : ℚ) / 2 ^ 53 := by
        rw [hε, hz]
        field_simp
        ring
      rw [hrw]
      have hacq : ((a * c : ℤ) : ℚ) ≤ 2 ^ 51 := by exact_mod_cast hac
      rw [div_lt_one (by norm_num)]
      linarith
    rw [abs_le] at herr
    have hfw := floor_within (a * c) b ε y hb hε0 hεb
      (by rw [← hz]; linarith [herr.1]) (by rw [← hz]; linarith [herr.2])
    refine ⟨by rw [hpy]; exact Int.floor_nonneg.mpr hy0,
      by rw [hpy]; exact hfw.1, by rw [hpy]; exact hfw.2, ?_⟩
    intro hlt
    rw [hpy] at hlt
    have hylt : y < (⌊z⌋ : ℚ) := by
      have h4 := Int.lt_floor_add_one y
      have hcast : ((⌊y⌋ : ℤ) : ℚ) + 1 ≤ ((⌊z⌋ : ℤ) : ℚ) := by exact_mod_cast hlt
      linarith
    have hfloorz : (⌊z⌋ : ℚ) ≤ z := Int.floor_le z
    have hfrac : z - ⌊z⌋ < ε := by linarith [herr.1]
    have hzb : z * b = ((a * c : ℤ) : ℚ) := by rw [hz]; field_simp
    have hi1 : ⌊z⌋ * b ≤ a * c := by
      have h5 : ((⌊z⌋ : ℚ)) * b ≤ z * b := by nlinarith
      rw [hzb] at h5
      exact_mod_cast h5
    have hrlt : ((a * c - ⌊z⌋ * b : ℤ) : ℚ) < 1 := by
      have h6 : ((a * c : ℤ) : ℚ) - ⌊z⌋ * b = (z - ⌊z⌋) * b := by
        rw [← hzb]
        ring
      push_cast
      push_cast at h6
      rw [h6]
      nlinarith
    have hr0 : a * c - ⌊z⌋ * b = 0 := by
      have h7 : a * c - ⌊z⌋ * b < 1 := by exact_mod_cast hrlt
      omega
    exact ⟨⌊z⌋, by linear_combination hr0⟩

/-- A state with `brightness = 2`, `max_brightness = 3`, on which
truncation and rounding to the nearest integer disagree. -/
def twoThirdsState : BacklightState :=
  { brightness := 2, max_brightness := 3, last_brightness := 0, bl_power := 0 }

/-- C7 counterexample: at `brightness = 2`, `max_brightness = 3` the code
computes the two rounded binary64 operations
`fl(2/3) = 6004799503160661/2^53` and `fl(fl(2/3)*100) = 66.666...`, then
truncates to `66`, while rounding `200/3` to the nearest integer as the
claim states gives `67`. -/
theorem get_brightness_percent_not_round :
    get_brightness_percent twoThirdsState = 66
    ∧ get_brightness_percent_spec twoThirdsState = 67
    ∧ get_brightness_percent twoThirdsState
        ≠ get_brightness_percent_spec twoThirdsState := by
  have e1 : fl ((2 : ℚ) / 3) = 6004799503160661 / 2 ^ 53 := by
    have h := fl_eval_down ((2 : ℚ) / 3) (-1) 6004799503160661 (by norm_num)
      (by norm_num) (by norm_num) (by norm_num) (by norm_num)
    rw [h]
    norm_num
  have e2 : fl ((6004799503160661 : ℚ) / 2 ^ 53 * 100)
      = 4691249611844266 / 2 ^ 46 := by
    have h := fl_eval_down ((6004799503160661 : ℚ) / 2 ^ 53 * 100) 6
      4691249611844266 (by norm_num) (by norm_num) (by norm_num)
      (by norm_num) (by norm_num)
    rw [h]
    norm_num
  have e3 : pyInt ((4691249611844266 : ℚ) / 2 ^ 46) = 66 := by
    norm_num [pyInt, Int.floor_eq_iff]
  have h1 : get_brightness_percent twoThirdsState = 66 := by
    have hunfold : get_brightness_percent twoThirdsState
        = pyInt (fl (fl ((2 : ℚ) / 3) * 100)) := by
      norm_num [get_brightness_percent, get_brightness, twoThirdsState]
    rw [hunfold, e1, e2, e3]
  have h2 : get_brightness_percent_spec twoThirdsState = 67 := by
    norm_num [twoThirdsState, get_brightness_percent_spec, get_brightness,
      round_eq, Int.floor_eq_iff]
  exact ⟨h1, h2, by rw [h1, h2]; norm_num⟩

/-- C7 amended: `get_brightness_percent` returns `0` when
`max_brightness = 0`, and otherwise truncates the double-rounded product
`(brightness / max_brightness) * 100` toward zero — for the in-range case
`0 ≤ brightness ≤ max_brightness ≤ 2^32` the result is the exact floor
`⌊brightness * 100 / max_brightness⌋` or one below it (one below does
occur, e.g. `56` at `brightness = 57`, `max_brightness = 100`); it is
never the nearest-integer rounding the spec sentence describes. -/
theorem get_brightness_percent_truncates (s : BacklightState) :
    (s.max_brightness = 0 → get_brightness_percent s = 0)
    ∧ (0 ≤ s.brightness → s.brightness ≤ s.max_brightness →
        0 < s.max_brightness → s.max_brightness ≤ 2 ^ 32 →
        ⌊((s.brightness * 100 : ℤ) : ℚ) / (s.max_brightness : ℚ)⌋ - 1
            ≤ get_brightness_percent s
          ∧ get_brightness_percent s
            ≤ ⌊((s.brightness * 100 : ℤ) : ℚ) / (s.max_brightness : ℚ)⌋) := by
  constructor
  · intro h
    simp [get_brightness_percent, h]
  · intro hb hbm hm hm32
    have hm0 : ¬ s.max_brightness = 0 := by omega
    have hsep : s.max_brightness * 100 ≤ 2 ^ 51 := by omega
    have hcore := pyInt_fl_div_mul s.brightness s.max_brightness 100 hb hbm hm
      (by norm_num) hsep
    rw [show ((100 : ℤ) : ℚ) = (100 : ℚ) from by norm_num] at hcore
    rw [get_brightness_percent, if_neg hm0, get_brightness]
    exact ⟨hcore.2.1, hcore.2.2.1⟩

/-- A degenerate state with `max_brightness = 0`. -/
def maxZeroState : BacklightState :=
  { brightness := 2, max_brightness := 0, last_brightness := 0, bl_power := 0 }

/-- Witness for C7's amended theorem: `max_brightness = 0` gives `0`, and
the in-range case at `brightness = 2`, `max_brightness = 3` lands on the
exact floor or one below it. -/
theorem get_brightness_percent_truncates_witness :
    get_brightness_percent maxZeroState = 0
    ∧ (⌊((twoThirdsState.brightness * 100 : ℤ) : ℚ)
          / (twoThirdsState.max_brightness : ℚ)⌋ - 1
        ≤ get_brightness_percent twoThirdsState
      ∧ get_brightness_percent twoThirdsState
        ≤ ⌊((twoThirdsState.brightness * 100 : ℤ) : ℚ)
            / (twoThirdsState.max_brightness : ℚ)⌋) :=
  ⟨(get_brightness_percent_truncates maxZeroState).1 rfl,
   (get_brightness_percent_truncates twoThirdsState).2
     (by norm_num [twoThirdsState]) (by norm_num [twoThirdsState])
     (by norm_num [twoThirdsState]) (by norm_num [twoThirdsState])⟩

/-- A state with `max_brightness = 7`, on which the percent round trip
loses more than one unit. -/
def maxSevenState : BacklightState :=
  { brightness := 0, max_brightness := 7, last_brightness := 0, bl_power := 0 }

/-- A state with `max_brightness = 100`, on which double rounding makes
the percent round trip lose two units. -/
def oneHundredState : BacklightState :=
  { brightness := 0, max_brightness := 100, last_brightness := 0,
    bl_power := 0 }

/-- C6 counterexample: the round trip is not within one unit of the set
percentage.  With `max_brightness = 7`, setting `50` percent stores
`int(0.5 * 7) = 3` and reads back `int(fl(fl(3/7)*100)) = 42`, eight units
off.  Even with `max_brightness = 100`, setting `58` percent stores
`int(0.58 * 100) = 57` (the binary64 product is just below `58`) and
reads back `int(0.57 * 100) = 56`, two units off. -/
theorem percent_round_trip_cex :
    (get_brightness_percent
        (set_brightness_percent maxSevenState true 50).2 = 42
      ∧ ¬ |get_brightness_percent
            (set_brightness_percent maxSevenState true 50).2 - 50| ≤ 1)
    ∧ (get_brightness_percent
        (set_brightness_percent oneHundredState true 58).2 = 56
      ∧ ¬ |get_brightness_percent
            (set_brightness_percent oneHundredState true 58).2 - 58| ≤ 1) := by
  have s1 : fl ((50 : ℚ) / 100) = 1 / 2 := by
    have h := fl_eval_down ((50 : ℚ) / 100) (-1) 4503599627370496
      (by norm_num) (by norm_num) (by norm_num) (by norm_num) (by norm_num)
    rw [h]
    norm_num
  have s2 : fl ((1 : ℚ) / 2 * 7) = 7 / 2 := by
    have h := fl_eval_down ((1 : ℚ) / 2 * 7) 1 7881299347898368
      (by norm_num) (by norm_num) (by norm_num) (by norm_num) (by norm_num)
    rw [h]
    norm_num
  have s3 : pyInt ((7 : ℚ) / 2) = 3 := by
    norm_num [pyInt, Int.floor_eq_iff]
  have hv1 : pyInt (fl (fl ((50 : ℚ) / 100)
      * (maxSevenState.max_brightness : ℚ))) = 3 := by
    rw [show ((maxSevenState.max_brightness : ℚ)) = 7 from by
      norm_num [maxSevenState]]
    rw [s1, s2, s3]
  have hstore1 : (set_brightness_percent maxSevenState true 50).2
      = { brightness := 3, max_brightness := 7, last_brightness := 3,
          bl_power := 0 } := by
    simp only [set_brightness_percent]
    rw [hv1]
    norm_num [set_brightness, maxSevenState]
  have r1 : fl ((3 : ℚ) / 7) = 7720456504063707 / 2 ^ 54 := by
    have h := fl_eval_down ((3 : ℚ) / 7) (-2) 7720456504063707
      (by norm_num) (by norm_num) (by norm_num) (by norm_num) (by norm_num)
    rw [h]
    norm_num
  have r2 : fl ((7720456504063707 : ℚ) / 2 ^ 54 * 100)
      = 6031606643799771 / 2 ^ 47 := by
    have h := fl_eval_down ((7720456504063707 : ℚ) / 2 ^ 54 * 100) 5
      6031606643799771 (by norm_num) (by norm_num) (by norm_num)
      (by norm_num) (by norm_num)
    rw [h]
    norm_num
  have r3 : pyInt ((6031606643799771 : ℚ) / 2 ^ 47) = 42 := by
    norm_num [pyInt, Int.floor_eq_iff]
  have hread1 : get_brightness_percent
      { brightness := 3, max_brightness := 7, last_brightness := 3,
        bl_power := 0 } = 42 := by
    have hunfold : get_brightness_percent
        { brightness := 3, max_brightness := 7, last_brightness := 3,
          bl_power := 0 }
        = pyInt (fl (fl ((3 : ℚ) / 7) * 100)) := by
      norm_num [get_brightness_percent, get_brightness]
    rw [hunfold, r1, r2, r3]
  have t1 : fl ((58 : ℚ) / 100) = 5224175567749775 / 2 ^ 53 := by
    have h := fl_eval_down ((58 : ℚ) / 100) (-1) 5224175567749775
      (by norm_num) (by norm_num) (by norm_num) (by norm_num) (by norm_num)
    rw [h]
    norm_num
  have t2 : fl ((5224175567749775 : ℚ) / 2 ^ 53 * 100)
      = 8162774324609023 / 2 ^ 47 := by
    have h := fl_eval_down ((5224175567749775 : ℚ) / 2 ^ 53 * 100) 5
      8162774324609023 (by norm_num) (by norm_num) (by norm_num)
      (by norm_num) (by norm_num)
    rw [h]
    norm_num
  have t3 : pyInt ((8162774324609023 : ℚ) / 2 ^ 47) = 57 := by
    norm_num [pyInt, Int.floor_eq_iff]
  have hv2 : pyInt (fl (fl ((58 : ℚ) / 100)
      * (oneHundredState.max_brightness : ℚ))) = 57 := by
    rw [show ((oneHundredState.max_brightness : ℚ)) = 100 from by
      norm_num [oneHundredState]]
    rw [t1, t2, t3]
  have hstore2 : (set_brightness_percent oneHundredState true 58).2
      = { brightness := 57, max_brightness := 100, last_brightness := 57,
          bl_power := 0 } := by
    simp only [set_brightness_percent]
    rw [hv2]
    norm_num [set_brightness, oneHundredState]
  have u1 : fl ((57 : ℚ) / 100) = 5134103575202365 / 2 ^ 53 := by
    have h := fl_eval_down ((57 : ℚ) / 100) (-1) 5134103575202365
      (by norm_num) (by norm_num) (by norm_num) (by norm_num) (by norm_num)
    rw [h]
    norm_num
  have u2 : fl ((5134103575202365 : ℚ) / 2 ^ 53 * 100)
      = 8022036836253695 / 2 ^ 47 := by
    have h := fl_eval_down ((5134103575202365 : ℚ) / 2 ^ 53 * 100) 5
      8022036836253695 (by norm_num) (by norm_num) (by norm_num)
      (by norm_num) (by norm_num)
    rw [h]
    norm_num
  have u3 : pyInt ((8022036836253695 : ℚ) / 2 ^ 47) = 56 := by
    norm_num [pyInt, Int.floor_eq_iff]
  have hread2 : get_brightness_percent
      { brightness := 57, max_brightness := 100, last_brightness := 57,
        bl_power := 0 } = 56 := by
    have hunfold : get_brightness_percent
        { brightness := 57, max_brightness := 100, last_brightness := 57,
          bl_power := 0 }
        = pyInt (fl (fl ((57 : ℚ) / 100) * 100)) := by
      norm_num [get_brightness_percent, get_brightness]
    rw [hunfold, u1, u2, u3]
  refine ⟨⟨?_, ?_⟩, ?_, ?_⟩
  · rw [hstore1, hread1]
  · rw [hstore1, hread1]
    norm_num
  · rw [hstore2, hread2]
  · rw [hstore2, hread2]
    norm_num

/-- C6 amended: for every integer `percent` in `[0, 100]`, whenever
`100 ≤ max_brightness ≤ 2^32` (one raw brightness unit is at most one
percent wide, and the device range is realistic) and the device write
succeeds, setting the percentage and reading it back is within two units
of `percent`.  Two, not one: each of the two conversions truncates a
correctly rounded binary64 product, and the rounding can push an exact
integer product just below itself, as at `percent = 58`,
`max_brightness = 100` where the round trip returns `56`. -/
theorem percent_round_trip (s : BacklightState) (p : ℤ)
    (hp0 : 0 ≤ p) (hp1 : p ≤ 100) (hm : 100 ≤ s.max_brightness)
    (hm32 : s.max_brightness ≤ 2 ^ 32) :
    |get_brightness_percent (set_brightness_percent s true (p : ℚ)).2 - p|
      ≤ 2 := by
  have hm0 : 0 < s.max_brightness := by omega
  have hmne : ¬ s.max_brightness = 0 := by omega
  have hcast100 : ((100 : ℤ) : ℚ) = (100 : ℚ) := by norm_num
  -- the store step: v is the raw value written by set_brightness_percent
  have hstore := pyInt_fl_div_mul p 100 s.max_brightness hp0 hp1
    (by norm_num) hm0 (by omega)
  rw [hcast100] at hstore
  obtain ⟨hv0, hvt1, hvt2, hdip⟩ := hstore
  -- integer bounds for t := ⌊p * m / 100⌋
  have htle := Int.floor_le (((p * s.max_brightness : ℤ) : ℚ) / (100 : ℚ))
  have htgt :=
    Int.lt_floor_add_one (((p * s.max_brightness : ℤ) : ℚ) / (100 : ℚ))
  have hti1 : 100 * ⌊((p * s.max_brightness : ℤ) : ℚ) / (100 : ℚ)⌋
      ≤ p * s.max_brightness := by
    have h := (le_div_iff₀ (by norm_num : (0 : ℚ) < 100)).mp htle
    have h2 : ((100 * ⌊((p * s.max_brightness : ℤ) : ℚ) / (100 : ℚ)⌋ : ℤ) : ℚ)
        ≤ ((p * s.max_brightness : ℤ) : ℚ) := by push_cast at h ⊢; linarith
    exact_mod_cast h2
  have hti2 : p * s.max_brightness
      < 100 * ⌊((p * s.max_brightness : ℤ) : ℚ) / (100 : ℚ)⌋ + 100 := by
    have h := (div_lt_iff₀ (by norm_num : (0 : ℚ) < 100)).mp htgt
    have h2 : ((p * s.max_brightness : ℤ) : ℚ)
        < ((100 * ⌊((p * s.max_brightness : ℤ) : ℚ) / (100 : ℚ)⌋ + 100 : ℤ) : ℚ) := by
      push_cast at h ⊢; linarith
    exact_mod_cast h2
  -- 0 ≤ v ≤ max_brightness, so the clamp in set_brightness is the identity
  have hvm : pyInt (fl (fl ((p : ℚ) / 100) * (s.max_brightness : ℚ)))
      ≤ s.max_brightness := by
    nlinarith [hvt2, hti1]
  have hset : (set_brightness_percent s true (p : ℚ)).2
      = { s with
          brightness :=
            pyInt (fl (fl ((p : ℚ) / 100) * (s.max_brightness : ℚ))),
          last_brightness :=
            pyInt (fl (fl ((p : ℚ) / 100) * (s.max_brightness : ℚ))) } := by
    have hclamp : max 0 (min
        (pyInt (fl (fl ((p : ℚ) / 100) * (s.max_brightness : ℚ))))
        s.max_brightness)
        = pyInt (fl (fl ((p : ℚ) / 100) * (s.max_brightness : ℚ))) := by
      omega
    rw [set_brightness_percent, set_brightness]
    simp only [if_true]
    rw [hclamp]
  -- the read step
  have hread := pyInt_fl_div_mul
    (pyInt (fl (fl ((p : ℚ) / 100) * (s.max_brightness : ℚ))))
    s.max_brightness 100 hv0 hvm hm0 (by norm_num) (by omega)
  rw [hcast100] at hread
  obtain ⟨hg0, hgX1, hgX2, _⟩ := hread
  have hget : get_brightness_percent (set_brightness_percent s true (p : ℚ)).2
      = pyInt (fl (fl
          (((pyInt (fl (fl ((p : ℚ) / 100) * (s.max_brightness : ℚ)))) : ℚ)
            / (s.max_brightness : ℚ)) * 100)) := by
    rw [hset]
    simp only [get_brightness_percent, get_brightness]
    rw [if_neg hmne]
  -- upper bound: the read floor is at most p
  have hXle : ⌊((pyInt (fl (fl ((p : ℚ) / 100) * (s.max_brightness : ℚ)))
      * 100 : ℤ) : ℚ) / (s.max_brightness : ℚ)⌋ ≤ p := by
    have h1 : ((pyInt (fl (fl ((p : ℚ) / 100) * (s.max_brightness : ℚ)))
        * 100 : ℤ) : ℚ) / (s.max_brightness : ℚ) ≤ (p : ℚ) := by
      rw [div_le_iff₀ (by exact_mod_cast hm0)]
      have h2 : pyInt (fl (fl ((p : ℚ) / 100) * (s.max_brightness : ℚ))) * 100
          ≤ p * s.max_brightness := by nlinarith [hvt2, hti1]
      exact_mod_cast h2
    calc ⌊((pyInt (fl (fl ((p : ℚ) / 100) * (s.max_brightness : ℚ)))
          * 100 : ℤ) : ℚ) / (s.max_brightness : ℚ)⌋
        ≤ ⌊(p : ℚ)⌋ := Int.floor_le_floor h1
      _ = p := Int.floor_intCast p
  -- lower bound: (p - 1) * max_brightness ≤ 100 * v
  have hkey : (p - 1) * s.max_brightness
      ≤ 100 * pyInt (fl (fl ((p : ℚ) / 100) * (s.max_brightness : ℚ))) := by
    have hexp : (p - 1) * s.max_brightness = p * s.max_brightness
        - s.max_brightness := by ring
    rcases (by omega :
        pyInt (fl (fl ((p : ℚ) / 100) * (s.max_brightness : ℚ)))
          = ⌊((p * s.max_brightness : ℤ) : ℚ) / (100 : ℚ)⌋
        ∨ pyInt (fl (fl ((p : ℚ) / 100) * (s.max_brightness : ℚ)))
          < ⌊((p * s.max_brightness : ℤ) : ℚ) / (100 : ℚ)⌋) with hcase | hcase
    · rw [hcase, hexp]
      linarith [hti2, hm]
    · obtain ⟨d, hd⟩ := hdip hcase
      have htd : ⌊((p * s.max_brightness : ℤ) : ℚ) / (100 : ℚ)⌋ = d := by
        rw [hd]
        push_cast
        rw [mul_comm, mul_div_assoc]
        norm_num
      rw [hexp, hd]
      rw [htd] at hvt1 hcase
      omega
  have hXge : p - 1
      ≤ ⌊((pyInt (fl (fl ((p : ℚ) / 100) * (s.max_brightness : ℚ)))
          * 100 : ℤ) : ℚ) / (s.max_brightness : ℚ)⌋ := by
    apply Int.le_floor.mpr
    rw [le_div_iff₀ (by exact_mod_cast hm0)]
    have h2 : (p - 1) * s.max_brightness
        ≤ pyInt (fl (fl ((p : ℚ) / 100) * (s.max_brightness : ℚ))) * 100 := by
      nlinarith [hkey]
    exact_mod_cast h2
  rw [hget, abs_le]
  constructor
  · omega
  · omega

/-- A state with `max_brightness = 400`, for the C6 witness. -/
def maxFourHundredState : BacklightState :=
  { brightness := 0, max_brightness := 400, last_brightness := 0,
    bl_power := 0 }

/-- Witness for C6's amended theorem at `max_brightness = 400`,
`percent = 29`: the round trip stays within two units of `29`. -/
theorem percent_round_trip_witness :
    |get_brightness_percent (set_brightness_percent maxFourHundredState true
        ((29 : ℤ) : ℚ)).2 - (29 : ℤ)| ≤ 2 :=
  percent_round_trip maxFourHundredState 29 (by norm_num) (by norm_num)
    (by norm_num [maxFourHundredState]) (by norm_num [maxFourHundredState])

/-- C1: while the gate is open, two Down events at times `t` and `t + dt`
from the reset detector state emit a wake signal if and only if
`dt < tap_timeout` (strict comparison): `dt = 499 ms` gives exactly one
wake, `dt = 501 ms` or `dt = 500 ms` exactly gives zero wakes, and in the
no-wake case the second Down's time is recorded as `last_tap_time`.  The
hypothesis `tap_timeout ≤ t` reflects the source's sentinel: it stores
`last_tap_time = 0` for "no previous tap", so the wall-clock timestamps
(`time.time()`, seconds since 1970, far above `0.5`) must exceed the
window for the sentinel to mean "long ago". -/
theorem double_tap_window (t dt : ℚ) (ht : tap_timeout ≤ t) :
    ((monitor_touch initState [downInput t, downInput (t + dt)]).wakes = 1
      ↔ dt < tap_timeout)
    ∧ ((monitor_touch initState [downInput t, downInput (t + dt)]).wakes = 0
      ↔ tap_timeout ≤ dt)
    ∧ (tap_timeout ≤ dt →
        (monitor_touch initState
          [downInput t, downInput (t + dt)]).state.last_tap_time = t + dt) := by
  have h1 : ¬ (t < tap_timeout) := not_lt.mpr ht
  by_cases hc : dt < tap_timeout
  · have hnc : ¬ tap_timeout ≤ dt := not_le.mpr hc
    simp [monitor_touch, downInput, step, initState, EV_KEY, BTN_TOUCH,
      h1, hc, hnc]
  · have hle : tap_timeout ≤ dt := not_lt.mp hc
    simp [monitor_touch, downInput, step, initState, EV_KEY, BTN_TOUCH,
      h1, hc, hle]

/-- Witness for C1: at baseline `t = 1 s`, separations of `499 ms`,
`501 ms` and exactly `500 ms` give one, zero and zero wake signals
respectively, and at `501 ms` the second tap time is recorded. -/
theorem double_tap_window_witness :
    (monitor_touch initState
      [downInput 1, downInput (1 + 499 / 1000)]).wakes = 1
    ∧ (monitor_touch initState
      [downInput 1, downInput (1 + 501 / 1000)]).wakes = 0
    ∧ (monitor_touch initState
      [downInput 1, downInput (1 + 1 / 2)]).wakes = 0
    ∧ (monitor_touch initState
      [downInput 1, downInput (1 + 501 / 1000)]).state.last_tap_time
        = 1 + 501 / 1000 := by
  have ht : tap_timeout ≤ (1 : ℚ) := by norm_num [tap_timeout]
  refine ⟨?_, ?_, ?_, ?_⟩
  · exact (double_tap_window 1 (499 / 1000) ht).1.mpr
      (by norm_num [tap_timeout])
  · exact (double_tap_window 1 (501 / 1000) ht).2.1.mpr
      (by norm_num [tap_timeout])
  · exact (double_tap_window 1 (1 / 2) ht).2.1.mpr
      (by norm_num [tap_timeout])
  · exact (double_tap_window 1 (501 / 1000) ht).2.2
      (by norm_num [tap_timeout])

/-- C2: a recognized double-tap emits the wake signal once and resets
`last_tap_time` to the "none" sentinel, so three Down events at times `t`,
`t + a`, `t + b` with `0 ≤ a ≤ b < tap_timeout` (e.g. offsets `0`,
`100 ms`, `220 ms`) while the gate is open emit exactly one wake signal in
total, not two. -/
theorem triple_tap_single_wake (t a b : ℚ) (ht : tap_timeout ≤ t)
    (ha : 0 ≤ a) (hab : a ≤ b) (hb : b < tap_timeout) :
    (monitor_touch initState
      [downInput t, downInput (t + a), downInput (t + b)]).wakes = 1 := by
  have h1 : ¬ (t < tap_timeout) := not_lt.mpr ht
  have h2 : a < tap_timeout := lt_of_le_of_lt hab hb
  have h3 : ¬ (t + b < tap_timeout) := by
    apply not_lt.mpr
    have hb0 : (0 : ℚ) ≤ b := le_trans ha hab
    linarith
  simp [monitor_touch, downInput, step, initState, EV_KEY, BTN_TOUCH,
    h1, h2, h3]

/-- Witness for C2 at baseline `t = 1 s` and offsets `100 ms` and
`220 ms`: exactly one wake signal. -/
theorem triple_tap_single_wake_witness :
    (monitor_touch initState
      [downInput 1, downInput (1 + 1 / 10), downInput (1 + 11 / 50)]).wakes
      = 1 :=
  triple_tap_single_wake 1 (1 / 10) (11 / 50) (by norm_num [tap_timeout])
    (by norm_num) (by norm_num) (by norm_num [tap_timeout])

/-- C4 counterexample: the `try/except` in `_monitor_touch` wraps the
whole `for` loop, so one event whose processing raises terminates the
loop.  Concretely: with a raising event followed by a valid double-tap
pair, the run processes no further event and emits zero wake signals,
while the same stream without the bad event emits one — the loop does not
continue past a bad event as the claim states. -/
theorem monitor_stops_on_error_cex :
    (monitor_touch initState
      [raisingInput, downInput 2, downInput (2 + 1 / 10)]).wakes = 0
    ∧ (monitor_touch initState
      [raisingInput, downInput 2, downInput (2 + 1 / 10)]).processed = 0
    ∧ (monitor_touch initState
      [raisingInput, downInput 2, downInput (2 + 1 / 10)]).caught = true
    ∧ (monitor_touch initState
      [downInput 2, downInput (2 + 1 / 10)]).wakes = 1 := by
  refine ⟨?_, ?_, ?_, ?_⟩ <;>
    norm_num [monitor_touch, raisingInput, downInput, step, initState,
      EV_KEY, BTN_TOUCH, tap_timeout]

/-- C4 amended: an unexpected per-event error is caught (it never escapes
`_monitor_touch`, so the thread ends cleanly), but it terminates the
monitoring loop at the offending event: the run over
`pre ++ bad :: rest` equals the run over `pre` alone with the exception
recorded as caught — no event after the bad one is read or processed. -/
theorem monitor_error_caught_loop_exits (s : DetectorState)
    (pre : List LoopInput) (bad : LoopInput) (rest : List LoopInput)
    (hpre : ∀ i ∈ pre, i.running = true ∧ i.raises = false)
    (hrun : bad.running = true) (hbad : bad.raises = true) :
    monitor_touch s (pre ++ bad :: rest)
      = { wakes := (monitor_touch s pre).wakes,
          state := (monitor_touch s pre).state,
          processed := (monitor_touch s pre).processed,
          caught := true } := by
  induction pre generalizing s with
  | nil => simp [monitor_touch, hrun, hbad]
  | cons i is ih =>
      have hi : i.running = true ∧ i.raises = false := hpre i (by simp)
      have his : ∀ j ∈ is, j.running = true ∧ j.raises = false :=
        fun j hj => hpre j (by simp [hj])
      simp [monitor_touch, hi.1, hi.2, ih _ his]

/-- Witness for C4's amended theorem: after one clean Down event, a
raising event ends the run with the error caught and the later Down pair
unprocessed. -/
theorem monitor_error_caught_loop_exits_witness :
    monitor_touch initState
      [downInput 1, raisingInput, downInput 2, downInput (2 + 1 / 10)]
      = { wakes := (monitor_touch initState [downInput 1]).wakes,
          state := (monitor_touch initState [downInput 1]).state,
          processed := (monitor_touch initState [downInput 1]).processed,
          caught := true } :=
  monitor_error_caught_loop_exits initState [downInput 1] raisingInput
    [downInput 2, downInput (2 + 1 / 10)]
    (by intro i hi; simp at hi; simp [hi, downInput]) rfl rfl

end BrightnessControl
